import Mathlib

/-!
# Active navigation link highlighter (`static/js/main.js`)

A shallow embedding of the `DOMContentLoaded` handler of `static/js/main.js`:

```
const currentPath = window.location.pathname;
const navLinks = document.querySelectorAll('.nav-link');
navLinks.forEach(link => {
    const linkPath = new URL(link.href).pathname;
    if (currentPath === linkPath || (currentPath === '/' && linkPath.includes('inventory'))) {
        link.classList.add('active');
    }
});
console.log('Deej - Inventory Manager loaded');
```

The browser state the handler touches is made explicit: the node list returned by
`querySelectorAll('.nav-link')` is a list of `Link`s, the console is a list of lines, and
an exception thrown by `new URL` is a flag of the outcome next to the state reached when
it was thrown.  The URL constructor is a host facility, so it is a parameter
`pathname : String → Option String` (`none` where `new URL(href)` throws).
-/

namespace NavHighlight

/-- An element of the node list: the value of its `href` property and the tokens of its
`classList`, in order. -/
structure Link where
  href : String
  classList : List String
deriving DecidableEq

/-- The part of the browser state the handler reads and writes: the node list of
`document.querySelectorAll('.nav-link')`, in document order, and the lines written to the
console so far. -/
structure Page where
  navLinks : List Link
  console : List String
deriving DecidableEq

/-- What a run of the handler leaves behind: the state reached, and whether the run ended
by an uncaught exception. -/
structure Outcome where
  page : Page
  threw : Bool
deriving DecidableEq

/-- The method `classList.add(token)`: the token is appended to the ordered token set unless the set
already has it. -/
def classListAdd (classList : List String) (token : String) : List String :=
  if token ∈ classList then classList else classList ++ [token]

/-- Substring search on character lists: does `search` occur in `s` at some offset. -/
def isInfixOf (search : List Char) : List Char → Bool
  | [] => search.isPrefixOf []
  | c :: cs => search.isPrefixOf (c :: cs) || isInfixOf search cs

/-- The method `s.includes(search)` of JavaScript strings: `search` occurs in `s` as a
contiguous substring.  The search string of the handler is ASCII, so searching code points
and searching UTF-16 code units agree. -/
def includes (s search : String) : Bool :=
  isInfixOf search.data s.data

/-- The condition of the `if` in the callback:
`currentPath === linkPath || (currentPath === '/' && linkPath.includes('inventory'))`. -/
def isMatch (currentPath linkPath : String) : Bool :=
  currentPath == linkPath || (currentPath == "/" && includes linkPath "inventory")

/-- The arrow function given to `forEach`, on one link: `none` when `new URL(link.href)`
throws, otherwise the link after the conditional `classList.add('active')`. -/
def highlightLink (pathname : String → Option String) (currentPath : String)
    (link : Link) : Option Link :=
  match pathname link.href with
  | none => none
  | some linkPath =>
    if isMatch currentPath linkPath then
      some { link with classList := classListAdd link.classList "active" }
    else
      some link

/-- The call `navLinks.forEach(callback)`: the callback runs on the elements in order; when it
throws, the iteration stops there, the elements already visited keep their mutation and
the remaining ones are untouched.  The flag tells whether it threw. -/
def forEach (callback : Link → Option Link) : List Link → List Link × Bool
  | [] => ([], false)
  | link :: rest =>
    match callback link with
    | none => (link :: rest, true)
    | some link' =>
      let r := forEach callback rest
      (link' :: r.1, r.2)

/-- The fixed text of the `console.log` call. -/
def loadedMessage : String := "Deej - Inventory Manager loaded"

/-- The `DOMContentLoaded` handler.  `currentPath` is `window.location.pathname`.  The
`console.log` statement follows the `forEach` statement, so it is reached only when the
iteration did not throw. -/
def handler (pathname : String → Option String) (currentPath : String)
    (page : Page) : Outcome :=
  let r := forEach (highlightLink pathname currentPath) page.navLinks
  if r.2 then
    { page := { navLinks := r.1, console := page.console }, threw := true }
  else
    { page := { navLinks := r.1, console := page.console ++ [loadedMessage] },
      threw := false }

/-- Every `href` of the list is accepted by the URL constructor. -/
def allParse (pathname : String → Option String) (links : List Link) : Prop :=
  ∀ link ∈ links, (pathname link.href).isSome = true

instance (pathname : String → Option String) (links : List Link) :
    Decidable (allParse pathname links) := by
  unfold allParse; infer_instance

/-- Sample values of the URL constructor, for the worked examples: `new URL(h).pathname`
at a few absolute hrefs of one site, and a throw at the empty string (the `href` property
of an anchor with no `href` attribute).  Hrefs outside the table are given `none` as well;
the examples use none of them. -/
def sampleURL (href : String) : Option String :=
  if href = "https://deej.test/" then some "/"
  else if href = "https://deej.test/inventory" then some "/inventory"
  else if href = "https://deej.test/inventory/list" then some "/inventory/list"
  else if href = "https://deej.test/settings" then some "/settings"
  else none

/-- Sample link to the inventory page. -/
def inventoryLink : Link :=
  { href := "https://deej.test/inventory", classList := ["nav-link"] }

/-- Sample link to the inventory list page. -/
def inventoryListLink : Link :=
  { href := "https://deej.test/inventory/list", classList := ["nav-link"] }

/-- Sample link to the settings page. -/
def settingsLink : Link :=
  { href := "https://deej.test/settings", classList := ["nav-link"] }

/-- Sample link to the home page, already carrying `active` and one more class. -/
def homeLink : Link :=
  { href := "https://deej.test/", classList := ["nav-link", "active", "brand"] }

/-- Sample element of class `nav-link` with no `href` attribute: its `href` property is
the empty string, at which `new URL` throws. -/
def brokenLink : Link :=
  { href := "", classList := ["nav-link"] }

/-- Does the link satisfy the condition of the callback: its `href` parses and the
pathname passes `isMatch`. -/
def linkMatches (pathname : String → Option String) (currentPath : String)
    (link : Link) : Bool :=
  match pathname link.href with
  | none => false
  | some linkPath => isMatch currentPath linkPath

/-- The test `link.classList.contains('active')`. -/
def isActive (link : Link) : Bool :=
  link.classList.contains "active"

/-! ## The callback on one link -/

theorem classListAdd_mem (classList : List String) (token : String) :
    token ∈ classListAdd classList token := by
  unfold classListAdd
  split <;> simp_all

theorem classListAdd_subset (classList : List String) (token c : String)
    (hc : c ∈ classList) : c ∈ classListAdd classList token := by
  unfold classListAdd
  split <;> simp_all

theorem classListAdd_new (classList : List String) (token c : String)
    (hc : c ∈ classListAdd classList token) : c ∈ classList ∨ c = token := by
  unfold classListAdd at hc
  split at hc <;> simp_all

theorem isInfixOf_iff (search s : List Char) :
    isInfixOf search s = true ↔ search <:+: s := by
  induction s with
  | nil => simp [isInfixOf]
  | cons c cs ih =>
    simp only [isInfixOf, Bool.or_eq_true, ih, List.isPrefixOf_iff_prefix, List.infix_cons_iff]

theorem highlightLink_eq_none (pathname : String → Option String) (currentPath : String)
    (link : Link) :
    highlightLink pathname currentPath link = none ↔ pathname link.href = none := by
  unfold highlightLink
  cases h : pathname link.href with
  | none => simp
  | some p => by_cases hm : isMatch currentPath p = true <;> simp [hm]

theorem highlightLink_of_match (pathname : String → Option String) (currentPath : String)
    (link : Link) (p : String) (hp : pathname link.href = some p)
    (hm : isMatch currentPath p = true) :
    highlightLink pathname currentPath link
      = some { link with classList := classListAdd link.classList "active" } := by
  simp [highlightLink, hp, hm]

theorem highlightLink_of_no_match (pathname : String → Option String) (currentPath : String)
    (link : Link) (p : String) (hp : pathname link.href = some p)
    (hm : isMatch currentPath p = false) :
    highlightLink pathname currentPath link = some link := by
  simp [highlightLink, hp, hm]

theorem highlightLink_additive (pathname : String → Option String) (currentPath : String)
    (link link' : Link) (h : highlightLink pathname currentPath link = some link') :
    link'.href = link.href ∧ (∀ c ∈ link.classList, c ∈ link'.classList) ∧
      (∀ c ∈ link'.classList, c ∈ link.classList ∨ c = "active") := by
  unfold highlightLink at h
  cases hp : pathname link.href with
  | none => simp [hp] at h
  | some p =>
    by_cases hm : isMatch currentPath p = true
    · simp only [hp, hm, if_true, Option.some.injEq] at h
      subst h
      exact ⟨rfl, fun c hc => classListAdd_subset _ _ _ hc, fun c hc => classListAdd_new _ _ _ hc⟩
    · simp only [hp, hm, Option.some.injEq] at h
      simp only [Bool.false_eq_true, if_false, Option.some.injEq] at h
      subst h
      exact ⟨rfl, fun c hc => hc, fun c hc => Or.inl hc⟩

theorem isMatch_iff (currentPath linkPath : String) :
    isMatch currentPath linkPath = true ↔
      (currentPath = linkPath ∨ (currentPath = "/" ∧ includes linkPath "inventory" = true)) := by
  simp [isMatch]

/-! ## The iteration -/

theorem forEach_length (f : Link → Option Link) (links : List Link) :
    (forEach f links).1.length = links.length := by
  induction links with
  | nil => rfl
  | cons x xs ih =>
    unfold forEach
    cases hx : f x with
    | none => rfl
    | some y => simp [ih]

theorem forEach_threw_iff (f : Link → Option Link) (links : List Link) :
    (forEach f links).2 = true ↔ ∃ x ∈ links, f x = none := by
  induction links with
  | nil => simp [forEach]
  | cons x xs ih =>
    unfold forEach
    cases hx : f x with
    | none => simp [hx]
    | some y => simp [hx, ih]

theorem forEach_getElem? (f : Link → Option Link) (links : List Link) (i : Nat) (x : Link)
    (hi : links[i]? = some x) :
    (forEach f links).1[i]? = some x ∨
      ∃ y, f x = some y ∧ (forEach f links).1[i]? = some y := by
  induction links generalizing i with
  | nil => simp at hi
  | cons a as ih =>
    unfold forEach
    cases ha : f a with
    | none => exact Or.inl hi
    | some b =>
      cases i with
      | zero =>
        simp only [List.getElem?_cons_zero, Option.some.injEq] at hi
        subst hi
        exact Or.inr ⟨b, ha, by simp⟩
      | succ j =>
        simp only [List.getElem?_cons_succ] at hi
        simpa using ih j hi

theorem forEach_eq_map (f : Link → Option Link) (links : List Link)
    (hok : ∀ x ∈ links, (f x).isSome = true) :
    forEach f links = (links.map (fun x => (f x).getD x), false) := by
  induction links with
  | nil => rfl
  | cons a as ih =>
    have ha := hok a (List.mem_cons_self a as)
    have has : ∀ x ∈ as, (f x).isSome = true := fun x hx => hok x (List.mem_cons_of_mem a hx)
    unfold forEach
    cases hfa : f a with
    | none => simp [hfa] at ha
    | some b => simp [ih has, hfa]

theorem forEach_append_throw (f : Link → Option Link) (pre rest : List Link) (bad : Link)
    (hok : ∀ x ∈ pre, (f x).isSome = true) (hbad : f bad = none) :
    forEach f (pre ++ bad :: rest) = ((forEach f pre).1 ++ bad :: rest, true) := by
  induction pre with
  | nil => simp [forEach, hbad]
  | cons a as ih =>
    have ha := hok a (List.mem_cons_self a as)
    have has : ∀ x ∈ as, (f x).isSome = true := fun x hx => hok x (List.mem_cons_of_mem a hx)
    cases hfa : f a with
    | none => simp [hfa] at ha
    | some b => simp [forEach, hfa, ih has]

theorem exists_first_throw (f : Link → Option Link) (links : List Link)
    (h : ∃ x ∈ links, f x = none) :
    ∃ pre bad rest, links = pre ++ bad :: rest ∧ (∀ x ∈ pre, (f x).isSome = true) ∧
      f bad = none := by
  induction links with
  | nil => simp at h
  | cons a as ih =>
    cases hfa : f a with
    | none => exact ⟨[], a, as, rfl, by simp, hfa⟩
    | some b =>
      have h' : ∃ x ∈ as, f x = none := by
        obtain ⟨x, hx, hfx⟩ := h
        rcases List.mem_cons.mp hx with rfl | hx
        · simp [hfa] at hfx
        · exact ⟨x, hx, hfx⟩
      obtain ⟨pre, bad, rest, hl, hpre, hbad⟩ := ih h'
      refine ⟨a :: pre, bad, rest, by simp [hl], ?_, hbad⟩
      intro x hx
      rcases List.mem_cons.mp hx with rfl | hx
      · simp [hfa]
      · exact hpre x hx

theorem allParse_callback (pathname : String → Option String) (currentPath : String)
    (links : List Link) (h : allParse pathname links) :
    ∀ x ∈ links, (highlightLink pathname currentPath x).isSome = true := by
  intro x hx
  have := h x hx
  cases hh : highlightLink pathname currentPath x with
  | none => rw [highlightLink_eq_none] at hh; simp [hh] at this
  | some y => rfl

/-! ## The handler -/

theorem handler_navLinks (pathname : String → Option String) (currentPath : String)
    (page : Page) :
    (handler pathname currentPath page).page.navLinks
      = (forEach (highlightLink pathname currentPath) page.navLinks).1 := by
  unfold handler
  by_cases h : (forEach (highlightLink pathname currentPath) page.navLinks).2 = true <;>
    simp [h]

theorem handler_threw (pathname : String → Option String) (currentPath : String)
    (page : Page) :
    (handler pathname currentPath page).threw
      = (forEach (highlightLink pathname currentPath) page.navLinks).2 := by
  unfold handler
  by_cases h : (forEach (highlightLink pathname currentPath) page.navLinks).2 = true <;>
    simp [h]

theorem handler_threw_iff (pathname : String → Option String) (currentPath : String)
    (page : Page) :
    (handler pathname currentPath page).threw = true ↔
      ∃ link ∈ page.navLinks, pathname link.href = none := by
  rw [handler_threw, forEach_threw_iff]
  simp only [highlightLink_eq_none]

theorem handler_console (pathname : String → Option String) (currentPath : String)
    (page : Page) :
    (handler pathname currentPath page).page.console
      = if (handler pathname currentPath page).threw then page.console
        else page.console ++ [loadedMessage] := by
  unfold handler
  by_cases h : (forEach (highlightLink pathname currentPath) page.navLinks).2 = true <;>
    simp [h]

theorem not_threw_of_allParse (pathname : String → Option String) (currentPath : String)
    (page : Page) (hwf : allParse pathname page.navLinks) :
    (handler pathname currentPath page).threw = false := by
  rw [handler_threw, forEach_eq_map _ _ (allParse_callback pathname currentPath _ hwf)]

theorem handler_getElem?_of_allParse (pathname : String → Option String)
    (currentPath : String) (page : Page) (hwf : allParse pathname page.navLinks)
    (i : Nat) (link : Link) (hi : page.navLinks[i]? = some link) :
    (handler pathname currentPath page).page.navLinks[i]?
      = highlightLink pathname currentPath link ∧
    (highlightLink pathname currentPath link).isSome = true := by
  have hok := allParse_callback pathname currentPath _ hwf
  have hsome := hok link (List.getElem?_mem hi)
  rw [handler_navLinks, forEach_eq_map _ _ hok]
  refine ⟨?_, hsome⟩
  simp only [List.getElem?_map, hi, Option.map_some']
  cases hh : highlightLink pathname currentPath link with
  | none => simp [hh] at hsome
  | some y => simp

theorem handler_getElem?_of_match (pathname : String → Option String)
    (currentPath : String) (page : Page) (hwf : allParse pathname page.navLinks)
    (i : Nat) (link : Link) (p : String) (hi : page.navLinks[i]? = some link)
    (hp : pathname link.href = some p) (hm : isMatch currentPath p = true) :
    (handler pathname currentPath page).page.navLinks[i]?
      = some { link with classList := classListAdd link.classList "active" } := by
  rw [(handler_getElem?_of_allParse pathname currentPath page hwf i link hi).1,
    highlightLink_of_match pathname currentPath link p hp hm]

theorem includes_inventory_ne_root (p : String) (h : includes p "inventory" = true) :
    p ≠ "/" := by
  rintro rfl
  revert h
  decide

theorem highlightLink_getD (pathname : String → Option String) (currentPath : String)
    (link : Link) :
    (highlightLink pathname currentPath link).getD link
      = if linkMatches pathname currentPath link then
          { link with classList := classListAdd link.classList "active" }
        else link := by
  unfold highlightLink linkMatches
  cases hp : pathname link.href with
  | none => simp
  | some linkPath => by_cases hm : isMatch currentPath linkPath = true <;> simp [hm]

theorem forEach_map_href (f : Link → Option Link) (links : List Link)
    (hf : ∀ x y, f x = some y → y.href = x.href) :
    (forEach f links).1.map Link.href = links.map Link.href := by
  induction links with
  | nil => rfl
  | cons a as ih =>
    unfold forEach
    cases hfa : f a with
    | none => rfl
    | some b => simp [ih, hf a b hfa]

theorem allParse_perm (pathname : String → Option String) (links links' : List Link)
    (hperm : links.Perm links') (h : allParse pathname links) : allParse pathname links' :=
  fun link hl => h link (hperm.mem_iff.mpr hl)

theorem handler_threw_perm (pathname : String → Option String) (currentPath : String)
    (links links' : List Link) (console console' : List String)
    (hperm : links.Perm links') :
    (handler pathname currentPath ⟨links, console⟩).threw
      = (handler pathname currentPath ⟨links', console'⟩).threw := by
  rw [Bool.eq_iff_iff, handler_threw_iff, handler_threw_iff]
  constructor
  · rintro ⟨x, hx, h⟩
    exact ⟨x, hperm.mem_iff.mp hx, h⟩
  · rintro ⟨x, hx, h⟩
    exact ⟨x, hperm.mem_iff.mpr hx, h⟩

/-! ## Matching links are marked -/

/-- C1 (exact-match rule): when every href of the node list parses, after the handler has
run each link whose target path (the pathname of its parsed href) equals the current path
has `active` in its class list; the link is still at its position, with its href. -/
theorem exact_match_marked (pathname : String → Option String) (currentPath : String)
    (page : Page) (hwf : allParse pathname page.navLinks) (i : Nat) (link : Link)
    (hi : page.navLinks[i]? = some link) (hm : pathname link.href = some currentPath) :
    ∃ link', (handler pathname currentPath page).page.navLinks[i]? = some link' ∧
      link'.href = link.href ∧ "active" ∈ link'.classList := by
  have hmatch : isMatch currentPath currentPath = true := by simp [isMatch]
  exact ⟨_, handler_getElem?_of_match pathname currentPath page hwf i link currentPath hi hm
    hmatch, rfl, classListAdd_mem _ _⟩

/-- Instance of C1: at current path `/settings` the settings link, second of two, is marked. -/
theorem exact_match_marked_witness :
    ∃ link', (handler sampleURL "/settings"
        ⟨[inventoryLink, settingsLink], []⟩).page.navLinks[1]? = some link' ∧
      link'.href = settingsLink.href ∧ "active" ∈ link'.classList :=
  exact_match_marked sampleURL "/settings" ⟨[inventoryLink, settingsLink], []⟩
    (by decide) 1 settingsLink (by decide) (by decide)

/-- C2 (root-fallback rule): when every href of the node list parses and the current path
is exactly `/`, after the handler has run each link whose target path contains the
substring `inventory` has `active` in its class list, and such a target path is never
equal to `/`. -/
theorem root_fallback_marked (pathname : String → Option String) (page : Page)
    (hwf : allParse pathname page.navLinks) (i : Nat) (link : Link) (linkPath : String)
    (hi : page.navLinks[i]? = some link) (hp : pathname link.href = some linkPath)
    (hinc : includes linkPath "inventory" = true) :
    linkPath ≠ "/" ∧
    ∃ link', (handler pathname "/" page).page.navLinks[i]? = some link' ∧
      link'.href = link.href ∧ "active" ∈ link'.classList := by
  have hmatch : isMatch "/" linkPath = true := by simp [isMatch, hinc]
  exact ⟨includes_inventory_ne_root linkPath hinc, _,
    handler_getElem?_of_match pathname "/" page hwf i link linkPath hi hp hmatch, rfl,
    classListAdd_mem _ _⟩

/-- Instance of C2: at current path `/` the inventory list link, second of two, is marked. -/
theorem root_fallback_marked_witness :
    "/inventory/list" ≠ "/" ∧
    ∃ link', (handler sampleURL "/"
        ⟨[settingsLink, inventoryListLink], []⟩).page.navLinks[1]? = some link' ∧
      link'.href = inventoryListLink.href ∧ "active" ∈ link'.classList :=
  root_fallback_marked sampleURL ⟨[settingsLink, inventoryListLink], []⟩ (by decide) 1
    inventoryListLink "/inventory/list" (by decide) (by decide) (by decide)

/-- C3 (non-matching links are never marked): in every run, failed or not, a link whose
target path differs from the current path and does not satisfy the root-fallback rule is
after the run exactly what it was before it.  In particular, for current path
`/inventory/list` and two links with target paths `/inventory/list` and `/settings`,
the first receives `active` and the second is unchanged. -/
theorem nonmatching_unchanged (pathname : String → Option String) :
    (∀ (currentPath : String) (page : Page) (i : Nat) (link : Link) (linkPath : String),
      page.navLinks[i]? = some link → pathname link.href = some linkPath →
      linkPath ≠ currentPath →
      ¬ (currentPath = "/" ∧ includes linkPath "inventory" = true) →
      (handler pathname currentPath page).page.navLinks[i]? = some link) ∧
    (∀ (a b : Link) (console : List String),
      pathname a.href = some "/inventory/list" → pathname b.href = some "/settings" →
      (handler pathname "/inventory/list" ⟨[a, b], console⟩).page.navLinks
        = [{ a with classList := classListAdd a.classList "active" }, b]) := by
  constructor
  · intro currentPath page i link linkPath hi hp hne hroot
    have hm : isMatch currentPath linkPath = false := by
      rw [Bool.eq_false_iff, Ne, isMatch_iff]
      rintro (h | h)
      · exact hne h.symm
      · exact hroot h
    have hcb := highlightLink_of_no_match pathname currentPath link linkPath hp hm
    rw [handler_navLinks]
    rcases forEach_getElem? (highlightLink pathname currentPath) page.navLinks i link hi
      with h | ⟨y, hy, h⟩
    · exact h
    · rw [hcb] at hy
      rw [h, ← hy]
  · intro a b console ha hb
    have h1 : isMatch "/inventory/list" "/inventory/list" = true := by decide
    have h2 : isMatch "/inventory/list" "/settings" = false := by decide
    simp [handler, forEach, highlightLink, ha, hb, h1, h2]

/-- Instance of C3: the settings link is unchanged in a run that throws before reaching it, and in the two-link example of the claim. -/
theorem nonmatching_unchanged_witness :
    (handler sampleURL "/" ⟨[brokenLink, settingsLink], []⟩).page.navLinks[1]?
        = some settingsLink ∧
    (handler sampleURL "/inventory/list"
        ⟨[inventoryListLink, settingsLink], []⟩).page.navLinks
      = [{ inventoryListLink with
            classList := classListAdd inventoryListLink.classList "active" },
          settingsLink] :=
  ⟨(nonmatching_unchanged sampleURL).1 "/" ⟨[brokenLink, settingsLink], []⟩ 1 settingsLink
      "/settings" (by decide) (by decide) (by decide) (by decide),
    (nonmatching_unchanged sampleURL).2 inventoryListLink settingsLink [] (by decide)
      (by decide)⟩

/-- C4 (no single-winner exclusivity): when every href of the node list parses, every
link that satisfies the exact-match rule or the root-fallback rule has `active` after the
run, whatever its position and however many others match, and the number of links that
carry `active` after the run is at least the number of matching links. -/
theorem all_matches_marked (pathname : String → Option String) (currentPath : String)
    (page : Page) (hwf : allParse pathname page.navLinks) :
    (∀ (i : Nat) (link : Link) (linkPath : String),
      page.navLinks[i]? = some link → pathname link.href = some linkPath →
      (currentPath = linkPath ∨
        (currentPath = "/" ∧ includes linkPath "inventory" = true)) →
      ∃ link', (handler pathname currentPath page).page.navLinks[i]? = some link' ∧
        link'.href = link.href ∧ "active" ∈ link'.classList) ∧
    page.navLinks.countP (linkMatches pathname currentPath)
      ≤ (handler pathname currentPath page).page.navLinks.countP isActive := by
  constructor
  · intro i link linkPath hi hp hm
    exact ⟨_, handler_getElem?_of_match pathname currentPath page hwf i link linkPath hi hp
      ((isMatch_iff _ _).mpr hm), rfl, classListAdd_mem _ _⟩
  · rw [handler_navLinks,
      forEach_eq_map _ _ (allParse_callback pathname currentPath _ hwf), List.countP_map]
    apply List.countP_mono_left
    intro link _ hm
    unfold linkMatches at hm
    cases hp : pathname link.href with
    | none => simp [hp] at hm
    | some linkPath =>
      simp only [hp] at hm
      simp only [Function.comp, highlightLink_of_match pathname currentPath link linkPath hp hm,
        Option.getD_some, isActive]
      simpa using classListAdd_mem link.classList "active"

/-- Instance of C4: at current path `/` both inventory links, first and third of three, are marked. -/
theorem all_matches_marked_witness :
    (∃ link', (handler sampleURL "/"
        ⟨[inventoryLink, settingsLink, inventoryListLink], []⟩).page.navLinks[0]?
          = some link' ∧
      link'.href = inventoryLink.href ∧ "active" ∈ link'.classList) ∧
    (∃ link', (handler sampleURL "/"
        ⟨[inventoryLink, settingsLink, inventoryListLink], []⟩).page.navLinks[2]?
          = some link' ∧
      link'.href = inventoryListLink.href ∧ "active" ∈ link'.classList) ∧
    2 ≤ (handler sampleURL "/"
      ⟨[inventoryLink, settingsLink, inventoryListLink], []⟩).page.navLinks.countP isActive :=
  ⟨(all_matches_marked sampleURL "/" ⟨[inventoryLink, settingsLink, inventoryListLink], []⟩
      (by decide)).1 0 inventoryLink "/inventory" (by decide) (by decide) (by decide),
    (all_matches_marked sampleURL "/" ⟨[inventoryLink, settingsLink, inventoryListLink], []⟩
      (by decide)).1 2 inventoryListLink "/inventory/list" (by decide) (by decide) (by decide),
    (all_matches_marked sampleURL "/" ⟨[inventoryLink, settingsLink, inventoryListLink], []⟩
      (by decide)).2⟩

/-! ## Failure -/

/-- C5 (failure policy): the handler ends by an uncaught exception exactly when some link
of the node list has an href that the URL constructor rejects; whenever every href
parses it completes without one, for every current path. -/
theorem threw_iff_malformed (pathname : String → Option String) (currentPath : String)
    (page : Page) :
    ((handler pathname currentPath page).threw = true ↔
      ∃ link ∈ page.navLinks, pathname link.href = none) ∧
    (allParse pathname page.navLinks → (handler pathname currentPath page).threw = false) :=
  ⟨handler_threw_iff pathname currentPath page,
    not_threw_of_allParse pathname currentPath page⟩

/-- Instance of C5: a node list with an element of empty href, and one whose hrefs all parse. -/
theorem threw_iff_malformed_witness :
    ((handler sampleURL "/" ⟨[inventoryLink, brokenLink], []⟩).threw = true ↔
      ∃ link ∈ [inventoryLink, brokenLink], sampleURL link.href = none) ∧
    (handler sampleURL "/" ⟨[inventoryLink, settingsLink], []⟩).threw = false :=
  ⟨(threw_iff_malformed sampleURL "/" ⟨[inventoryLink, brokenLink], []⟩).1,
    (threw_iff_malformed sampleURL "/" ⟨[inventoryLink, settingsLink], []⟩).2 (by decide)⟩

/-- C6, as the code has it: a failed run is not undone.  On the node list of a matching
link followed by an element whose href does not parse, the run throws and the first link
has nevertheless received `active`. -/
theorem failure_keeps_earlier_marks :
    (handler sampleURL "/inventory" ⟨[inventoryLink, brokenLink], []⟩).threw = true ∧
    (handler sampleURL "/inventory" ⟨[inventoryLink, brokenLink], []⟩).page.navLinks
      = [{ inventoryLink with classList := ["nav-link", "active"] }, brokenLink] ∧
    (handler sampleURL "/inventory" ⟨[inventoryLink, brokenLink], []⟩).page.navLinks
      ≠ [inventoryLink, brokenLink] := by
  decide

/-- C6, amended: a failed run stops at the first link, in document order, whose href does
not parse.  That link and every link after it are what they were before the run; each
link before it has been handled as in a run that completes: `active` added when it
matches, unchanged otherwise. -/
theorem failure_stops_at_first_malformed (pathname : String → Option String)
    (currentPath : String) (page : Page)
    (hthrew : (handler pathname currentPath page).threw = true) :
    ∃ pre bad rest, page.navLinks = pre ++ bad :: rest ∧ allParse pathname pre ∧
      pathname bad.href = none ∧
      (handler pathname currentPath page).page.navLinks
        = pre.map (fun link =>
            if linkMatches pathname currentPath link then
              { link with classList := classListAdd link.classList "active" }
            else link) ++ bad :: rest := by
  rw [handler_threw, forEach_threw_iff] at hthrew
  obtain ⟨pre, bad, rest, hl, hpre, hbad⟩ := exists_first_throw _ _ hthrew
  refine ⟨pre, bad, rest, hl, ?_, (highlightLink_eq_none _ _ _).mp hbad, ?_⟩
  · intro link hlink
    have := hpre link hlink
    cases hp : pathname link.href with
    | none => rw [(highlightLink_eq_none pathname currentPath link).mpr hp] at this; simp at this
    | some q => rfl
  · rw [handler_navLinks, hl, forEach_append_throw _ _ _ _ hpre hbad, forEach_eq_map _ _ hpre]
    simp only [highlightLink_getD]

/-- Instance of the amended C6: a run that throws at the second of three elements. -/
theorem failure_stops_at_first_malformed_witness :
    ∃ pre bad rest, [inventoryLink, brokenLink, inventoryListLink] = pre ++ bad :: rest ∧
      allParse sampleURL pre ∧ sampleURL bad.href = none ∧
      (handler sampleURL "/"
          ⟨[inventoryLink, brokenLink, inventoryListLink], []⟩).page.navLinks
        = pre.map (fun link =>
            if linkMatches sampleURL "/" link then
              { link with classList := classListAdd link.classList "active" }
            else link) ++ bad :: rest :=
  failure_stops_at_first_malformed sampleURL "/"
    ⟨[inventoryLink, brokenLink, inventoryListLink], []⟩ (by decide)

/-! ## The log line -/

/-- C7, as the code has it: a run that throws at a malformed href never reaches the
`console.log` statement, so it writes no log line. -/
theorem no_log_line_on_failure :
    (handler sampleURL "/" ⟨[brokenLink], []⟩).threw = true ∧
    (handler sampleURL "/" ⟨[brokenLink], []⟩).page.console = [] ∧
    (handler sampleURL "/" ⟨[brokenLink], []⟩).page.console ≠ [loadedMessage] := by
  decide

/-- C7, amended: when every href of the node list parses, a run appends exactly one line,
the fixed text `Deej - Inventory Manager loaded`, to the console, whichever links
matched; a run that throws appends nothing. -/
theorem log_line_when_completed (pathname : String → Option String) (currentPath : String)
    (page : Page) :
    (allParse pathname page.navLinks →
      (handler pathname currentPath page).page.console
        = page.console ++ ["Deej - Inventory Manager loaded"]) ∧
    ((handler pathname currentPath page).threw = true →
      (handler pathname currentPath page).page.console = page.console) := by
  constructor
  · intro hwf
    rw [handler_console, not_threw_of_allParse pathname currentPath page hwf]
    rfl
  · intro h
    rw [handler_console, h]
    rfl

/-- Instance of the amended C7: a completed run and a failed run on a console that already has a line. -/
theorem log_line_when_completed_witness :
    (handler sampleURL "/settings" ⟨[inventoryLink, settingsLink], ["earlier"]⟩).page.console
        = ["earlier"] ++ ["Deej - Inventory Manager loaded"] ∧
    (handler sampleURL "/settings" ⟨[inventoryLink, brokenLink], ["earlier"]⟩).page.console
        = ["earlier"] :=
  ⟨(log_line_when_completed sampleURL "/settings"
      ⟨[inventoryLink, settingsLink], ["earlier"]⟩).1 (by decide),
    (log_line_when_completed sampleURL "/settings"
      ⟨[inventoryLink, brokenLink], ["earlier"]⟩).2 (by decide)⟩

/-! ## Invariants -/

/-- C8 (additive-only invariant): in every run, failed or not, (a) the node list keeps its
length and the hrefs of its links in order, each link staying at its position, (b) every
class a link had before the run, a pre-existing `active` included, it still has after
it, and (c) a class that a link has after the run and did not have before it is
`active`. -/
theorem additive_only (pathname : String → Option String) (currentPath : String)
    (page : Page) :
    (handler pathname currentPath page).page.navLinks.length = page.navLinks.length ∧
    (handler pathname currentPath page).page.navLinks.map Link.href
      = page.navLinks.map Link.href ∧
    ∀ (i : Nat) (link link' : Link), page.navLinks[i]? = some link →
      (handler pathname currentPath page).page.navLinks[i]? = some link' →
      link'.href = link.href ∧
      (∀ c ∈ link.classList, c ∈ link'.classList) ∧
      (∀ c ∈ link'.classList, c ∉ link.classList → c = "active") := by
  refine ⟨?_, ?_, ?_⟩
  · rw [handler_navLinks, forEach_length]
  · rw [handler_navLinks]
    exact forEach_map_href _ _ (fun x y h => (highlightLink_additive _ _ x y h).1)
  · intro i link link' hi hi'
    rw [handler_navLinks] at hi'
    rcases forEach_getElem? (highlightLink pathname currentPath) page.navLinks i link hi
      with h | ⟨y, hy, h⟩
    · rw [h, Option.some.injEq] at hi'
      subst hi'
      exact ⟨rfl, fun c hc => hc, fun c hc hn => absurd hc hn⟩
    · rw [h, Option.some.injEq] at hi'
      subst hi'
      obtain ⟨h1, h2, h3⟩ := highlightLink_additive pathname currentPath link y hy
      exact ⟨h1, h2, fun c hc hn => (h3 c hc).resolve_left hn⟩

/-- Instance of C8: a three-element node list whose last href does not parse. -/
theorem additive_only_witness :
    (handler sampleURL "/" ⟨[homeLink, inventoryLink, brokenLink], []⟩).page.navLinks.length
      = 3 ∧
    (handler sampleURL "/" ⟨[homeLink, inventoryLink, brokenLink], []⟩).page.navLinks.map
        Link.href
      = [homeLink, inventoryLink, brokenLink].map Link.href ∧
    ({ inventoryLink with classList := ["nav-link", "active"] } : Link).href
        = inventoryLink.href ∧
      (∀ c ∈ inventoryLink.classList, c ∈ ["nav-link", "active"]) ∧
      (∀ c ∈ ["nav-link", "active"], c ∉ inventoryLink.classList → c = "active") :=
  ⟨(additive_only sampleURL "/" ⟨[homeLink, inventoryLink, brokenLink], []⟩).1,
    (additive_only sampleURL "/" ⟨[homeLink, inventoryLink, brokenLink], []⟩).2.1,
    (additive_only sampleURL "/" ⟨[homeLink, inventoryLink, brokenLink], []⟩).2.2 1
      inventoryLink { inventoryLink with classList := ["nav-link", "active"] }
      (by decide) (by decide)⟩

/-! ## Iteration order -/

/-- C9, as the code has it: with a malformed href in the node list the order matters.
The same two elements in the two orders: the matching link is marked when it comes before
the malformed one and is not marked when it comes after it. -/
theorem order_matters_on_failure :
    List.Perm [inventoryLink, brokenLink] [brokenLink, inventoryLink] ∧
    [inventoryLink, brokenLink][0]? = [brokenLink, inventoryLink][1]? ∧
    (handler sampleURL "/inventory" ⟨[inventoryLink, brokenLink], []⟩).page.navLinks[0]?
      = some { inventoryLink with classList := ["nav-link", "active"] } ∧
    (handler sampleURL "/inventory" ⟨[brokenLink, inventoryLink], []⟩).page.navLinks[1]?
      = some inventoryLink ∧
    (handler sampleURL "/inventory" ⟨[inventoryLink, brokenLink], []⟩).page.navLinks[0]?
      ≠ (handler sampleURL "/inventory" ⟨[brokenLink, inventoryLink], []⟩).page.navLinks[1]? := by
  refine ⟨List.Perm.swap _ _ _, ?_, ?_, ?_, ?_⟩ <;> decide

/-- C9, amended: for every current path, every node list and every permutation of it, the
run on the permuted list throws exactly when the run on the original one does and writes
the same console lines; and when every href parses, each link ends with the same class
list in both runs, wherever it stands, so the two resulting node lists are permutations
of each other. -/
theorem order_irrelevant_when_wellformed (pathname : String → Option String)
    (currentPath : String) (links links' : List Link) (console : List String)
    (hperm : links.Perm links') :
    (handler pathname currentPath ⟨links, console⟩).threw
      = (handler pathname currentPath ⟨links', console⟩).threw ∧
    (handler pathname currentPath ⟨links, console⟩).page.console
      = (handler pathname currentPath ⟨links', console⟩).page.console ∧
    (allParse pathname links →
      (∀ (i j : Nat) (link : Link), links[i]? = some link → links'[j]? = some link →
        (handler pathname currentPath ⟨links, console⟩).page.navLinks[i]?
          = (handler pathname currentPath ⟨links', console⟩).page.navLinks[j]?) ∧
      List.Perm (handler pathname currentPath ⟨links, console⟩).page.navLinks
        (handler pathname currentPath ⟨links', console⟩).page.navLinks) := by
  have hthrew := handler_threw_perm pathname currentPath links links' console console hperm
  refine ⟨hthrew, ?_, ?_⟩
  · rw [handler_console, handler_console, hthrew]
  · intro hwf
    have hwf' := allParse_perm pathname links links' hperm hwf
    constructor
    · intro i j link hi hj
      rw [(handler_getElem?_of_allParse pathname currentPath ⟨links, console⟩ hwf i link hi).1,
        (handler_getElem?_of_allParse pathname currentPath ⟨links', console⟩ hwf' j link hj).1]
    · rw [handler_navLinks, handler_navLinks,
        forEach_eq_map _ _ (allParse_callback pathname currentPath _ hwf),
        forEach_eq_map _ _ (allParse_callback pathname currentPath _ hwf')]
      exact hperm.map _

/-- Instance of the amended C9: two links in the two orders. -/
theorem order_irrelevant_when_wellformed_witness :
    (handler sampleURL "/" ⟨[inventoryLink, settingsLink], []⟩).threw
      = (handler sampleURL "/" ⟨[settingsLink, inventoryLink], []⟩).threw ∧
    (handler sampleURL "/" ⟨[inventoryLink, settingsLink], []⟩).page.console
      = (handler sampleURL "/" ⟨[settingsLink, inventoryLink], []⟩).page.console ∧
    (handler sampleURL "/" ⟨[inventoryLink, settingsLink], []⟩).page.navLinks[0]?
      = (handler sampleURL "/" ⟨[settingsLink, inventoryLink], []⟩).page.navLinks[1]? ∧
    List.Perm (handler sampleURL "/" ⟨[inventoryLink, settingsLink], []⟩).page.navLinks
      (handler sampleURL "/" ⟨[settingsLink, inventoryLink], []⟩).page.navLinks :=
  ⟨(order_irrelevant_when_wellformed sampleURL "/" [inventoryLink, settingsLink]
      [settingsLink, inventoryLink] [] (List.Perm.swap _ _ _)).1,
    (order_irrelevant_when_wellformed sampleURL "/" [inventoryLink, settingsLink]
      [settingsLink, inventoryLink] [] (List.Perm.swap _ _ _)).2.1,
    ((order_irrelevant_when_wellformed sampleURL "/" [inventoryLink, settingsLink]
      [settingsLink, inventoryLink] [] (List.Perm.swap _ _ _)).2.2 (by decide)).1 0 1
      inventoryLink (by decide) (by decide),
    ((order_irrelevant_when_wellformed sampleURL "/" [inventoryLink, settingsLink]
      [settingsLink, inventoryLink] [] (List.Perm.swap _ _ _)).2.2 (by decide)).2⟩

/-! ## Empty node list -/

/-- C10 (empty collection): for every current path, a run on an empty node list completes
without an exception and leaves the node list empty, so no class list is changed and
nothing is marked active. -/
theorem empty_collection (pathname : String → Option String) (currentPath : String)
    (console : List String) :
    (handler pathname currentPath ⟨[], console⟩).threw = false ∧
    (handler pathname currentPath ⟨[], console⟩).page.navLinks = [] :=
  ⟨rfl, rfl⟩

end NavHighlight
